import Mathlib

set_option autoImplicit false

namespace Yaf2m

/-!
Shallow embedding of the yaf2m poll-dispatch engine (config.rs, db.rs,
render.rs, worker.rs, email.rs), with blake3 modelled as an ideal
(collision-free) hash: a byte stream is a list of segments, a segment is
either a literal byte or an opaque 32-byte digest block, and hashing is a
free constructor over the input stream.
-/

/-- A segment of a byte stream: a literal byte, or the 32-byte digest block
produced by hashing a stream (ideal-hash model of blake3). -/
inductive BSeg : Type where
  | byte (b : Nat) : BSeg
  | dig (s : List BSeg) : BSeg

mutual

def BSeg.decEq : (a b : BSeg) → Decidable (a = b)
  | .byte a, .byte b =>
    if h : a = b then .isTrue (by rw [h]) else .isFalse (by intro hc; cases hc; exact h rfl)
  | .byte _, .dig _ => .isFalse nofun
  | .dig _, .byte _ => .isFalse nofun
  | .dig s, .dig t =>
    match BSeg.decEqList s t with
    | .isTrue h => .isTrue (by rw [h])
    | .isFalse h => .isFalse (by intro hc; cases hc; exact h rfl)

def BSeg.decEqList : (s t : List BSeg) → Decidable (s = t)
  | [], [] => .isTrue rfl
  | [], _ :: _ => .isFalse nofun
  | _ :: _, [] => .isFalse nofun
  | a :: as, b :: bs =>
    match BSeg.decEq a b, BSeg.decEqList as bs with
    | .isTrue h1, .isTrue h2 => .isTrue (by rw [h1, h2])
    | .isFalse h1, _ => .isFalse (by intro hc; injection hc with h3 h4; exact h1 h3)
    | _, .isFalse h2 => .isFalse (by intro hc; injection hc with h3 h4; exact h2 h4)

end

instance : DecidableEq BSeg := BSeg.decEq

/-- A byte stream. -/
abbrev Bytes := List BSeg

/-- A literal byte string. -/
def rawBytes (l : List Nat) : Bytes := l.map BSeg.byte

/-- The bytes of a string (one segment per character). -/
def strBytes (s : String) : Bytes := s.data.map (fun c => BSeg.byte c.toNat)

/-- blake3 hash of a byte string, as the one-block stream holding its
32-byte digest. -/
def blake3hash (b : Bytes) : Bytes := [BSeg.dig b]

/-- blake3 Hasher: the accumulated input stream. -/
structure Hasher where
  input : Bytes
deriving DecidableEq

/-- Hasher.new creates an empty hasher. -/
def Hasher.new : Hasher := ⟨[]⟩

/-- Hasher.update appends bytes to the accumulated input. -/
def Hasher.update (h : Hasher) (b : Bytes) : Hasher := ⟨h.input ++ b⟩

/-- Hasher.finalize hashes the accumulated input. -/
def Hasher.finalize (h : Hasher) : Bytes := [BSeg.dig h.input]

/-- Hash.from_bytes(Default.default()): thirty-two literal zero bytes, the
all-zeros digest used when no filter is configured (config.rs line 331). -/
def zeroHash : Bytes := rawBytes (List.replicate 32 0)

/-- The Filter tree of config.rs (variants And/Or/Not/TitleRegex/BodyRegex/
Regex/JinjaExpr). -/
inductive Filter : Type where
  | and (subfilters : List Filter)
  | or (subfilters : List Filter)
  | not (subfilter : Filter)
  | titleRegex (pattern : String)
  | bodyRegex (pattern : String)
  | regex (pattern : String)
  | jinjaExpr (expr : String)

mutual

/-- Filter.hash of config.rs (lines 138-175): labelled recursive hashing,
the variant label mixed in before children or pattern hashes. -/
def Filter.hash : Filter → Bytes
  | .and subfilters => (Filter.hashFold (Hasher.new.update (strBytes "And")) subfilters).finalize
  | .or subfilters => (Filter.hashFold (Hasher.new.update (strBytes "Or")) subfilters).finalize
  | .not subfilter =>
      ((Hasher.new.update (strBytes "Not")).update subfilter.hash).finalize
  | .titleRegex pattern =>
      ((Hasher.new.update (strBytes "TitleRegex")).update (blake3hash (strBytes pattern))).finalize
  | .bodyRegex pattern =>
      ((Hasher.new.update (strBytes "BodyRegex")).update (blake3hash (strBytes pattern))).finalize
  | .regex pattern =>
      ((Hasher.new.update (strBytes "Regex")).update (blake3hash (strBytes pattern))).finalize
  | .jinjaExpr expr =>
      ((Hasher.new.update (strBytes "JinjaExpr")).update (blake3hash (strBytes expr))).finalize

/-- The loop `for subfilter in subfilters { hasher.update(subfilter.hash()) }`. -/
def Filter.hashFold : Hasher → List Filter → Hasher
  | h, [] => h
  | h, f :: fs => Filter.hashFold (h.update f.hash) fs

end

/-- filter.as_ref().map_or_else applied in FeedConfig::resolve (config.rs
lines 328-331): the filter hash, or the all-zeros digest with no filter. -/
def filterDigest : Option Filter → Bytes
  | none => zeroHash
  | some f => f.hash

/-- urls_hash of FeedConfig::resolve (config.rs lines 309-315): hash of the
concatenation of the per-URL hashes, in order. -/
def urls_hash (urls : List String) : Bytes :=
  (urls.foldl (fun h url => h.update (blake3hash (strBytes url))) Hasher.new).finalize

/-- criteria_hash of FeedConfig::resolve (config.rs lines 317-334): the
update-key hashes are folded into one digest, which is fed to the outer
hasher between urls_hash and the filter digest. -/
def criteria_hash (urls : List String) (update_keys : List String)
    (filter : Option Filter) : Bytes :=
  let h := Hasher.new.update (urls_hash urls)
  let update_key_hash :=
    (update_keys.foldl (fun h key => h.update (blake3hash (strBytes key))) Hasher.new).finalize
  let h := h.update update_key_hash
  let filter_hash := filterDigest filter
  let h := h.update filter_hash
  h.finalize

/-- The criteria hash as claim C2 states it: the bare concatenation
H( urls_hash ‖ H(key1) ‖ H(key2) ‖ … ‖ filter_digest ), the per-key hashes
fed to the outer hasher directly. -/
def criteria_hash_claimed (urls : List String) (update_keys : List String)
    (filter : Option Filter) : Bytes :=
  let h := Hasher.new.update (urls_hash urls)
  let h := update_keys.foldl (fun h key => h.update (blake3hash (strBytes key))) h
  (h.update (filterDigest filter)).finalize

theorem Hasher.foldl_update {α : Type} (g : α → Bytes) (h : Hasher) (l : List α) :
    l.foldl (fun h x => h.update (g x)) h = ⟨h.input ++ (l.map g).flatten⟩ := by
  induction l generalizing h with
  | nil => simp
  | cons x xs ih => rw [List.foldl_cons, ih]; simp [Hasher.update]

/-!
Scheduling store (db.rs). Timestamps are seconds since the UNIX epoch, as
integers. urls_hash and update_hash values are opaque 32-byte digests; the
db layer only compares them for equality, so they are modelled as abstract
identifiers (Nat).
-/

/-- A feed_groups row (migration schema): last_check, nullable last_update,
last_seen. The urls_hash primary key is the association key. -/
structure FeedGroupRow where
  last_check : Int
  last_update : Option Int
  last_seen : Int
deriving DecidableEq

/-- The feed_groups table, keyed by urls_hash. -/
abbrev FeedGroupsTable := List (Nat × FeedGroupRow)

/-- saturating_sub_datetime of db.rs (lines 203-208): subtracting a delta
from a timestamp never goes below the UNIX epoch. -/
def saturating_sub_datetime (dt delta : Int) : Int :=
  if 0 < dt - delta then dt - delta else 0

/-- try_check_feed_group of db.rs (lines 61-94): one atomic statement that
upserts (urls_hash, now, now) into feed_groups, on conflict setting
last_check to now only when the stored last_check is older than the cutoff,
and reports "new" (fresh insert), "update" (conflict, update applied) or
"wait" (conflict, no update). -/
def try_check_feed_group (table : FeedGroupsTable) (urls_hash : Nat)
    (now interval : Int) : FeedGroupsTable × String :=
  let update_cutoff := saturating_sub_datetime now interval
  match table.find? (fun p => p.1 == urls_hash) with
  | none =>
      (table ++ [(urls_hash, { last_check := now, last_update := none, last_seen := now })],
        "new")
  | some (_, row) =>
      if row.last_check < update_cutoff then
        (table.map (fun p =>
            if p.1 = urls_hash then (p.1, { p.2 with last_check := now }) else p),
          "update")
      else
        (table, "wait")

/-- A feed_items row: the (urls_hash, update_hash) unique key with its
last_seen timestamp. -/
abbrev FeedItemsTable := List ((Nat × Nat) × Int)

/-- upsert_and_check_item_new of db.rs (lines 96-116): insert the
(urls_hash, update_hash) pair with last_seen = now, on conflict only
refreshing last_seen; reports whether the insert was fresh. -/
def upsert_and_check_item_new (table : FeedItemsTable) (urls_hash update_hash : Nat)
    (now : Int) : FeedItemsTable × Bool :=
  match table.find? (fun p => p.1 == (urls_hash, update_hash)) with
  | none => (table ++ [((urls_hash, update_hash), now)], true)
  | some _ =>
      (table.map (fun p =>
          if p.1 = (urls_hash, update_hash) then (p.1, now) else p),
        false)

/-- The dedup loop of Worker::process_feed (worker.rs lines 174-198),
restricted to its database effect: fold the filtered items' update hashes
through upsert_and_check_item_new, collecting the hashes reported new (the
emitted items). -/
def process_items (table : FeedItemsTable) (urls_hash : Nat) (update_hashes : List Nat)
    (now : Int) : FeedItemsTable × List Nat :=
  match update_hashes with
  | [] => (table, [])
  | h :: rest =>
      let step := upsert_and_check_item_new table urls_hash h now
      let restRes := process_items step.1 urls_hash rest now
      (restRes.1, if step.2 then h :: restRes.2 else restRes.2)

/-!
Filter evaluation (render.rs). Compiled regexes are modelled by their
is_match functions and compiled Jinja expressions by their evaluators; both
are produced at group startup by CompiledFilter::compile, out of scope here.
-/

/-- Text of feed-rs: only the content field is read by filtering. -/
structure Text where
  content : String

/-- Content of feed-rs: only the optional body is read by filtering. -/
structure Content where
  body : Option String

/-- The fields of a feed entry read by CompiledFilter::evaluate. -/
structure Entry where
  title : Option Text
  summary : Option Text
  content : Option Content

/-- FeedItemContext of feed.rs: the per-item context handed to the filter. -/
structure FeedItemContext where
  item : Entry

/-- A compiled regex (render.rs leaves hold regex::Regex values), modelled
by its is_match function. -/
structure CRegex where
  is_match : String → Bool

/-- CompiledFilter of render.rs (lines 166-174): the compiled evaluator tree
with the same shape as the Filter tree. The JinjaExpr leaf holds the
compiled expression's evaluator, whose Bool is Value::is_true of the
evaluated value. -/
inductive CompiledFilter : Type where
  | and (clauses : List CompiledFilter)
  | or (clauses : List CompiledFilter)
  | not (clause : CompiledFilter)
  | titleRegex (re : CRegex)
  | bodyRegex (re : CRegex)
  | regex (re : CRegex)
  | jinjaExpr (eval : FeedItemContext → Except String Bool)

mutual

/-- CompiledFilter::evaluate (render.rs lines 213-247). -/
def CompiledFilter.evaluate : CompiledFilter → FeedItemContext → Except String Bool
  | .and clauses, ctx => CompiledFilter.evalAnd clauses ctx
  | .or clauses, ctx => CompiledFilter.evalOr clauses ctx
  | .not clause, ctx => do pure (!(← clause.evaluate ctx))
  | .titleRegex re, ctx =>
      .ok (match ctx.item.title with
        | none => false
        | some t => re.is_match t.content)
  | .bodyRegex re, ctx =>
      .ok (((ctx.item.summary.map Text.content).toList ++
            (ctx.item.content.bind Content.body).toList).any re.is_match)
  | .regex re, ctx =>
      .ok (((ctx.item.title.map Text.content).toList ++
            (ctx.item.summary.map Text.content).toList ++
            (ctx.item.content.bind Content.body).toList).any re.is_match)
  | .jinjaExpr ev, ctx => ev ctx

/-- The And loop of evaluate: Ok(false) at the first clause evaluating
false, skipping the rest; clause errors propagate via the question mark. -/
def CompiledFilter.evalAnd : List CompiledFilter → FeedItemContext → Except String Bool
  | [], _ => .ok true
  | c :: cs, ctx => do
      if (← c.evaluate ctx) then CompiledFilter.evalAnd cs ctx else pure false

/-- The Or loop of evaluate: Ok(true) at the first clause evaluating true,
skipping the rest; clause errors propagate via the question mark. -/
def CompiledFilter.evalOr : List CompiledFilter → FeedItemContext → Except String Bool
  | [], _ => .ok false
  | c :: cs, ctx => do
      if (← c.evaluate ctx) then pure true else CompiledFilter.evalOr cs ctx

end

/-- Renderer::filter (render.rs lines 123-127): with no filter configured
every item passes. -/
def Renderer.filter (filter : Option CompiledFilter) (ctx : FeedItemContext) :
    Except String Bool :=
  match filter with
  | none => .ok true
  | some f => f.evaluate ctx

/-!
Worker (worker.rs): scheduling status, mail classification, the send phase
of a per-group cycle, and the failure tracker. Template rendering is done by
the external template engine and is abstracted as rendered values.
-/

/-- FeedStatus of the later db iteration, as consumed by Worker::process_feed
(worker.rs lines 150-225). -/
inductive FeedStatus : Type where
  | newFeed
  | newCriteria
  | update
  | wait
deriving DecidableEq

/-- A rendered mail (email.rs Mail): subject and HTML body. -/
structure Mail where
  subject : String
  body : String
deriving DecidableEq

/-- The digest-or-per-item condition of Worker::process_feed (worker.rs
lines 212-215). -/
def is_digest_mode (status : FeedStatus) (digest : Bool)
    (new_count max_mails_per_check : Nat) : Bool :=
  (status == .newFeed || status == .newCriteria) || digest ||
    decide (new_count > max_mails_per_check)

/-- The mail construction of Worker::process_feed (worker.rs lines 211-241):
one digest mail, or one per-item mail per new item. The rendered digest mail
and the per-item rendering are parameters (external template engine). -/
def build_mails {Item : Type} (status : FeedStatus) (digest : Bool)
    (max_mails_per_check : Nat) (new_items : List Item) (digest_mail : Mail)
    (item_mail : Item → Mail) : List Mail :=
  if is_digest_mode status digest new_items.length max_mails_per_check then [digest_mail]
  else new_items.map item_mail

/-- The digest subject construction of Worker::process_feed (worker.rs lines
221-229): the status-dependent marker prepended to the rendered
digest-subject template output. -/
def digest_subject (status : FeedStatus) (rendered : String) : String :=
  (match status with
   | .newFeed => "[New Feed] "
   | .newCriteria => "[New Criteria] "
   | _ => "") ++ rendered

/-- set_feed_group_update_time of db.rs (lines 139-149). -/
def set_feed_group_update_time (table : FeedGroupsTable) (urls_hash : Nat)
    (now : Int) : FeedGroupsTable :=
  table.map (fun p =>
    if p.1 = urls_hash then (p.1, { p.2 with last_update := some now }) else p)

/-- clear_failure of db.rs (lines 151-159). failures rows are keyed by
urls_hash; the row payload (fail_count, error, fail_time) is abstract. -/
def clear_failure (failures : List (Nat × Nat)) (urls_hash : Nat) : List (Nat × Nat) :=
  failures.filter (fun p => p.1 != urls_hash)

/-- delete_old_items of db.rs (lines 118-137): delete this group's items
whose last_seen is older than the keep_old cutoff. -/
def delete_old_items (table : FeedItemsTable) (urls_hash : Nat)
    (now keep_old : Int) : FeedItemsTable :=
  let cutoff := saturating_sub_datetime now keep_old
  table.filter (fun p => !(p.1.1 == urls_hash && decide (p.2 < cutoff)))

/-- The database state touched by the send phase of a per-group cycle. -/
structure CycleDB where
  feed_groups : FeedGroupsTable
  feed_items : FeedItemsTable
  failures : List (Nat × Nat)
deriving DecidableEq

/-- Worker::process_feed from the mail classification to the commit
(worker.rs lines 211-274), given the computed new_items: build the mails,
skip sending with a warning when to, cc and bcc are all empty, otherwise
send (send_ok abstracts the SMTP outcome; a send failure propagates and the
transaction rolls back), then set last_update, clear the failure row, delete
old items and commit. The Bool reports whether mails were sent. -/
def process_feed_send_phase {Item : Type} (db : CycleDB) (urls_hash : Nat) (now : Int)
    (status : FeedStatus) (digest : Bool) (max_mails_per_check : Nat) (keep_old : Int)
    (new_items : List Item) (digest_mail : Mail) (item_mail : Item → Mail)
    (recipients_empty : Bool) (send_ok : Bool) : Except String (CycleDB × Bool) :=
  let sendStep : Except String (CycleDB × Bool) :=
    if new_items.isEmpty then .ok (db, false)
    else
      let _mails := build_mails status digest max_mails_per_check new_items
        digest_mail item_mail
      if recipients_empty then
        .ok ({ db with
                feed_groups := set_feed_group_update_time db.feed_groups urls_hash now },
          false)
      else if send_ok then
        .ok ({ db with
                feed_groups := set_feed_group_update_time db.feed_groups urls_hash now },
          true)
      else
        .error "Failed to send email after all retries"
  match sendStep with
  | .error e => .error e
  | .ok (db1, sent) =>
      .ok ({ db1 with
              failures := clear_failure db1.failures urls_hash,
              feed_items := delete_old_items db1.feed_items urls_hash now keep_old },
        sent)

/-- A feed_groups row of the later db iteration: the persisted criteria_hash
column alongside the scheduling timestamps. -/
structure FeedGroupRowV2 where
  last_check : Int
  last_update : Option Int
  last_seen : Int
  criteria_hash : Nat
deriving DecidableEq

/-- Modelled from the spec: the later iteration's try_check_feed_group is
not under src (src/db.rs is the earlier iteration returning plain strings,
while src/worker.rs consumes its FeedStatus result). Spec section 4.4: the
same atomic claim upsert, and additionally, when the live criteria_hash
differs from the persisted one, the scheduler classifies the cycle as
new-criteria. -/
def try_check_feed_group_v2 (table : List (Nat × FeedGroupRowV2))
    (urls_hash criteria : Nat) (now interval : Int) :
    List (Nat × FeedGroupRowV2) × FeedStatus :=
  let update_cutoff := saturating_sub_datetime now interval
  match table.find? (fun p => p.1 == urls_hash) with
  | none =>
      (table ++ [(urls_hash,
          { last_check := now, last_update := none, last_seen := now,
            criteria_hash := criteria })],
        .newFeed)
  | some (_, row) =>
      if row.criteria_hash ≠ criteria then
        (table.map (fun p =>
            if p.1 = urls_hash then
              (p.1, { p.2 with last_check := now, criteria_hash := criteria })
            else p),
          .newCriteria)
      else if row.last_check < update_cutoff then
        (table.map (fun p =>
            if p.1 = urls_hash then (p.1, { p.2 with last_check := now }) else p),
          .update)
      else
        (table, .wait)

/-!
Failure tracker (worker.rs lines 278-386). In the ideal-hash model the
blake3 digest of the concatenated sorted urls_hash values is determined by,
and determines, the sorted key list, so failing_hash is modelled as that
sorted list.
-/

/-- DEBOUNCE_TIMES of FailureTracker (worker.rs line 300). -/
def DEBOUNCE_TIMES : Nat := 5

/-- FailureTracker process-local state (worker.rs lines 278-283). -/
structure FailureTracker where
  failing_hash : List Nat
  debounce_count : Nat
  report_to : List String
deriving DecidableEq

/-- FailureTracker::new (worker.rs lines 302-314): the digest of the empty
input, debounce_count 0, no recipients. -/
def FailureTracker.new : FailureTracker :=
  { failing_hash := [], debounce_count := 0, report_to := [] }

/-- The digest computed by FailureTracker::record (worker.rs lines 321-328):
sort the failing groups by their urls_hash bytes and hash the concatenation
of the sorted hashes. -/
def compute_failing_hash (failures : List (Nat × String)) : List Nat :=
  (failures.map Prod.fst).insertionSort (· ≤ ·)

/-- FailureTracker::send_failure_report (worker.rs lines 345-385): with no
report_to recipients, return Ok without touching the mailer; otherwise build
the recovery mail (empty failing set) or the failure-report mail and hand it
to the SMTP transport. The returned list is the mails handed to the
transport; mailer_ok abstracts the transport outcome, and render_report the
built-in minijinja failure template. -/
def send_failure_report (report_to : List String) (failures : List (Nat × String))
    (render_report : List (Nat × String) → String) (now_str : String)
    (mailer_ok : Bool) : Except String (List Mail) :=
  if report_to.isEmpty then .ok []
  else
    let mail : Mail :=
      if failures.isEmpty then
        { subject := "✅ All feeds are working",
          body := "All feeds are back to normal now (" ++ now_str ++ ")." }
      else
        { subject := "🔴 Error processing feeds", body := render_report failures }
    if mailer_ok then .ok [mail] else .error "Failed to send email after all retries"

/-- FailureTracker::record (worker.rs lines 320-343): equal digest drives
the debounce counter (0 does nothing, 1 sends the report and resets to 0 on
success, anything larger decrements); a differing digest is stored and the
counter reset to DEBOUNCE_TIMES. Returns the new state and the mails handed
to the transport this tick. -/
def FailureTracker.record (st : FailureTracker) (failures : List (Nat × String))
    (render_report : List (Nat × String) → String) (now_str : String)
    (mailer_ok : Bool) : FailureTracker × List Mail :=
  let failing_hash := compute_failing_hash failures
  if failing_hash = st.failing_hash then
    match st.debounce_count with
    | 0 => (st, [])
    | 1 =>
        match send_failure_report st.report_to failures render_report now_str mailer_ok with
        | .error _ => (st, [])
        | .ok mails => ({ st with debounce_count := 0 }, mails)
    | n + 2 => ({ st with debounce_count := n + 1 }, [])
  else
    ({ st with failing_hash := failing_hash, debounce_count := DEBOUNCE_TIMES }, [])

/-- Iterated ticks of FailureTracker::record with a fixed failing set and a
working transport, counting the ticks on which mails were handed to the
transport. -/
def FailureTracker.run_ticks (st : FailureTracker) (failures : List (Nat × String))
    (render_report : List (Nat × String) → String) (now_str : String) :
    Nat → FailureTracker × Nat
  | 0 => (st, 0)
  | n + 1 =>
      let step := st.record failures render_report now_str true
      let rest := step.1.run_ticks failures render_report now_str n
      (rest.1, (if step.2.isEmpty then 0 else 1) + rest.2)

/-!
SMTP dispatch (email.rs).
-/

/-- RETRY_COUNT of email.rs (line 9). -/
def RETRY_COUNT : Nat := 3

/-- The per-message retry loop of send_email_with_backoff (email.rs lines
52-63), `for attempt in 1..=RETRY_COUNT` over the list of remaining attempt
numbers: a successful send breaks out of the loop; a failed attempt with
attempt < RETRY_COUNT (the rest of the range nonempty) sleeps 1 << attempt
seconds and continues; a failed final attempt returns the error. The result
pairs the successful attempt number (none modelling the error return) with
the sleeps performed, in seconds. -/
def retry_loop (attempt_ok : Nat → Bool) : List Nat → Option Nat × List Nat
  | [] => (none, [])
  | a :: rest =>
      if attempt_ok a then (some a, [])
      else if rest.isEmpty then (none, [])
      else
        let r := retry_loop attempt_ok rest
        (r.1, 2 ^ a :: r.2)

/-- send_email_with_backoff restricted to one message: the retry loop over
attempts 1..=RETRY_COUNT. -/
def send_message_with_backoff (attempt_ok : Nat → Bool) : Option Nat × List Nat :=
  retry_loop attempt_ok (List.range' 1 RETRY_COUNT)

/-- The row stored under a key, read through the first matching entry (the
primary-key invariant makes it unique). -/
def lookup_row (table : FeedGroupsTable) (k : Nat) : Option FeedGroupRow :=
  (table.find? (fun p => p.1 == k)).map Prod.snd

/-!
Claims.
-/

/-- Claim C2 (amended): criteria_hash is H( urls_hash ‖ update_keys_digest ‖
filter_digest ) where update_keys_digest = H( H(key1) ‖ H(key2) ‖ … ): the
per-update-key hashes are first combined into one digest, and that single
digest stands between urls_hash and the filter digest in the outer hash
input; filter_digest is the all-zeros digest when no filter is configured. -/
theorem criteria_hash_eq_nested (urls update_keys : List String)
    (filter : Option Filter) :
    criteria_hash urls update_keys filter =
      blake3hash (urls_hash urls ++
        blake3hash ((update_keys.map (fun k => blake3hash (strBytes k))).flatten) ++
        filterDigest filter) := by
  unfold criteria_hash
  rw [Hasher.foldl_update]
  simp [Hasher.new, Hasher.update, Hasher.finalize, blake3hash]

/-- Claim C2 (counterexample): at the config with one URL, the single
default-like update key and no filter, the computed criteria_hash differs
from the claimed bare concatenation H( urls_hash ‖ H(key1) ‖ … ‖
filter_digest ). -/
theorem criteria_hash_claim_fails :
    criteria_hash ["u"] ["k"] none ≠ criteria_hash_claimed ["u"] ["k"] none := by
  decide

/-- Claim C1: try_check_feed_group for hash H at time now with cutoff
now - interval: with no row keyed H it inserts (H, now, now) and returns
"new"; with a row whose last_check is older than the cutoff it sets that
row's last_check to now and returns "update"; otherwise it returns "wait"
and the table is left completely unchanged. -/
theorem try_check_feed_group_spec (table : FeedGroupsTable) (H : Nat)
    (now interval : Int) (hcut : 0 < now - interval) :
    ((∀ p ∈ table, p.1 ≠ H) →
        try_check_feed_group table H now interval =
          (table ++ [(H, { last_check := now, last_update := none, last_seen := now })],
            "new"))
    ∧ (∀ row, table.find? (fun p => p.1 == H) = some (H, row) →
        row.last_check < now - interval →
          try_check_feed_group table H now interval =
            (table.map (fun p =>
                if p.1 = H then (p.1, { p.2 with last_check := now }) else p),
              "update"))
    ∧ (∀ row, table.find? (fun p => p.1 == H) = some (H, row) →
        now - interval ≤ row.last_check →
          try_check_feed_group table H now interval = (table, "wait")) := by
  have hc : saturating_sub_datetime now interval = now - interval := by
    simp [saturating_sub_datetime, hcut]
  refine ⟨?_, ?_, ?_⟩
  · intro habs
    have hnone : table.find? (fun p => p.1 == H) = none := by
      rw [List.find?_eq_none]
      intro p hp
      simpa using habs p hp
    simp [try_check_feed_group, hnone]
  · intro row hfind hlt
    simp [try_check_feed_group, hfind, hc, hlt]
  · intro row hfind hge
    simp [try_check_feed_group, hfind, hc, not_lt.mpr hge]

/-- Claim C1 witness: the first observation of a group inserts its row and
reports "new". -/
theorem try_check_feed_group_spec_witness :
    try_check_feed_group [] 5 10 3 =
      ([(5, { last_check := 10, last_update := none, last_seen := 10 })], "new") :=
  (try_check_feed_group_spec [] 5 10 3 (by decide)).1 (by simp)

theorem upsert_mem_key (table : FeedItemsTable) (uh ih : Nat) (now : Int) :
    ∃ p ∈ (upsert_and_check_item_new table uh ih now).1, p.1 = (uh, ih) := by
  unfold upsert_and_check_item_new
  cases hfind : table.find? (fun p => p.1 == (uh, ih)) with
  | none =>
      exact ⟨((uh, ih), now), by simp, rfl⟩
  | some q =>
      have hq : q ∈ table := List.mem_of_find?_eq_some hfind
      have hq1 : q.1 = (uh, ih) := by
        have := List.find?_some hfind
        simpa using this
      refine ⟨(q.1, now), ?_, hq1⟩
      simp only []
      exact List.mem_map.mpr ⟨q, hq, by simp [hq1]⟩

theorem upsert_preserves_key (table : FeedItemsTable) (uh ih : Nat) (now : Int)
    (k : Nat × Nat) (hk : ∃ p ∈ table, p.1 = k) :
    ∃ p ∈ (upsert_and_check_item_new table uh ih now).1, p.1 = k := by
  obtain ⟨p, hp, hpk⟩ := hk
  unfold upsert_and_check_item_new
  cases hfind : table.find? (fun p => p.1 == (uh, ih)) with
  | none => exact ⟨p, by simp [hp], hpk⟩
  | some q =>
      by_cases hcase : p.1 = (uh, ih)
      · exact ⟨(p.1, now), List.mem_map.mpr ⟨p, hp, by simp [hcase]⟩, hpk⟩
      · exact ⟨p, List.mem_map.mpr ⟨p, hp, by simp [hcase]⟩, hpk⟩

theorem upsert_present_not_new (table : FeedItemsTable) (uh ih : Nat) (now : Int)
    (hk : ∃ p ∈ table, p.1 = (uh, ih)) :
    (upsert_and_check_item_new table uh ih now).2 = false := by
  obtain ⟨p, hp, hpk⟩ := hk
  have hsome : (table.find? (fun p => p.1 == (uh, ih))).isSome := by
    rw [List.find?_isSome]
    exact ⟨p, hp, by simp [hpk]⟩
  unfold upsert_and_check_item_new
  cases hfind : table.find? (fun p => p.1 == (uh, ih)) with
  | none => rw [hfind] at hsome; simp at hsome
  | some q => simp

theorem process_items_preserves_key (table : FeedItemsTable) (uh : Nat)
    (update_hashes : List Nat) (now : Int) (k : Nat × Nat)
    (hk : ∃ p ∈ table, p.1 = k) :
    ∃ p ∈ (process_items table uh update_hashes now).1, p.1 = k := by
  induction update_hashes generalizing table with
  | nil => simpa [process_items] using hk
  | cons h rest ih =>
      simp only [process_items]
      exact ih _ (upsert_preserves_key table uh h now k hk)

theorem process_items_mem (table : FeedItemsTable) (uh : Nat)
    (update_hashes : List Nat) (now : Int) :
    ∀ h ∈ update_hashes,
      ∃ p ∈ (process_items table uh update_hashes now).1, p.1 = (uh, h) := by
  induction update_hashes generalizing table with
  | nil => simp
  | cons h rest ih =>
      intro g hg
      rcases List.mem_cons.mp hg with hg | hg
      · subst hg
        simp only [process_items]
        exact process_items_preserves_key _ uh rest now (uh, g)
          (upsert_mem_key table uh g now)
      · simp only [process_items]
        exact ih _ g hg

theorem process_items_all_present_no_new (table : FeedItemsTable) (uh : Nat)
    (update_hashes : List Nat) (now : Int)
    (hall : ∀ h ∈ update_hashes, ∃ p ∈ table, p.1 = (uh, h)) :
    (process_items table uh update_hashes now).2 = [] := by
  induction update_hashes generalizing table with
  | nil => simp [process_items]
  | cons h rest ih =>
      have hnotnew := upsert_present_not_new table uh h now (hall h (by simp))
      simp only [process_items, hnotnew, if_false]
      exact ih _ (fun g hg =>
        upsert_preserves_key table uh h now (uh, g) (hall g (by simp [hg])))

/-- Claim C3: a (urls_hash, update_hash) pair not present is inserted and
reported new; a present pair is reported not-new and the table changes only
by refreshing that row's last_seen; hence a second pass over the same
update hashes emits nothing. -/
theorem upsert_and_check_item_new_spec (table : FeedItemsTable) (uh ih : Nat)
    (now : Int) :
    ((∀ p ∈ table, p.1 ≠ (uh, ih)) →
        upsert_and_check_item_new table uh ih now = (table ++ [((uh, ih), now)], true))
    ∧ ((∃ p ∈ table, p.1 = (uh, ih)) →
        upsert_and_check_item_new table uh ih now =
          (table.map (fun p => if p.1 = (uh, ih) then (p.1, now) else p), false))
    ∧ (∀ (update_hashes : List Nat) (now2 : Int),
        (process_items (process_items table uh update_hashes now).1
            uh update_hashes now2).2 = []) := by
  refine ⟨?_, ?_, ?_⟩
  · intro habs
    have hnone : table.find? (fun p => p.1 == (uh, ih)) = none := by
      rw [List.find?_eq_none]
      intro p hp
      simpa using habs p hp
    simp [upsert_and_check_item_new, hnone]
  · intro hk
    obtain ⟨p, hp, hpk⟩ := hk
    have hsome : (table.find? (fun p => p.1 == (uh, ih))).isSome := by
      rw [List.find?_isSome]
      exact ⟨p, hp, by simp [hpk]⟩
    cases hfind : table.find? (fun p => p.1 == (uh, ih)) with
    | none => rw [hfind] at hsome; simp at hsome
    | some q => simp [upsert_and_check_item_new, hfind]
  · intro update_hashes now2
    exact process_items_all_present_no_new _ uh update_hashes now2
      (process_items_mem table uh update_hashes now)

/-- Claim C3 witness: a fresh pair is inserted and reported new, and a
repeated pass over concrete update hashes emits nothing. -/
theorem upsert_and_check_item_new_spec_witness :
    upsert_and_check_item_new [] 1 2 50 = ([((1, 2), 50)], true) ∧
    (process_items (process_items [] 1 [7, 7, 8] 50).1 1 [7, 7, 8] 60).2 = [] :=
  ⟨(upsert_and_check_item_new_spec [] 1 2 50).1 (by simp),
   (upsert_and_check_item_new_spec [] 1 2 50).2.2 [7, 7, 8] 60⟩

/-- Claim C4: with at least one new item, the mail mode is digest exactly
when the status is new or new-criteria, or settings.digest is set, or there
are strictly more new items than max_mails_per_check; digest mode yields the
one digest mail, and otherwise one per-item mail is produced for each new
item. -/
theorem build_mails_spec {Item : Type} (status : FeedStatus) (digest : Bool)
    (max_mails_per_check : Nat) (new_items : List Item) (digest_mail : Mail)
    (item_mail : Item → Mail) (_hne : new_items ≠ []) :
    (is_digest_mode status digest new_items.length max_mails_per_check = true ↔
      (status = .newFeed ∨ status = .newCriteria ∨ digest = true ∨
        new_items.length > max_mails_per_check))
    ∧ (is_digest_mode status digest new_items.length max_mails_per_check = true →
        build_mails status digest max_mails_per_check new_items digest_mail item_mail =
          [digest_mail])
    ∧ (is_digest_mode status digest new_items.length max_mails_per_check = false →
        build_mails status digest max_mails_per_check new_items digest_mail item_mail =
          new_items.map item_mail ∧
        (build_mails status digest max_mails_per_check new_items digest_mail
            item_mail).length = new_items.length) := by
  refine ⟨?_, ?_, ?_⟩
  · cases status <;> simp [is_digest_mode]
  · intro hmode
    simp [build_mails, hmode]
  · intro hmode
    constructor
    · simp [build_mails, hmode]
    · simp [build_mails, hmode]

/-- Claim C4 witness: three new items against max_mails_per_check = 2 on a
routine update give digest mode; against max_mails_per_check = 3 they give
three per-item mails. -/
theorem build_mails_spec_witness :
    build_mails .update false 2 [10, 20, 30]
        { subject := "d", body := "db" } (fun i => { subject := toString i, body := "" }) =
      [{ subject := "d", body := "db" }] ∧
    (build_mails .update false 3 [10, 20, 30]
        { subject := "d", body := "db" }
        (fun i => { subject := toString i, body := "" })).length = 3 := by
  refine ⟨?_, ?_⟩
  · exact (build_mails_spec .update false 2 [10, 20, 30] _ _ (by simp)).2.1 (by decide)
  · have h := (build_mails_spec .update false 3 [10, 20, 30]
      { subject := "d", body := "db" }
      (fun i => { subject := toString i, body := "" }) (by simp)).2.2 (by decide)
    simpa using h.2

theorem evalAnd_append_false (pre post : List CompiledFilter) (c : CompiledFilter)
    (ctx : FeedItemContext) (h1 : ∀ f ∈ pre, f.evaluate ctx = .ok true)
    (h2 : c.evaluate ctx = .ok false) :
    CompiledFilter.evalAnd (pre ++ c :: post) ctx = .ok false := by
  induction pre with
  | nil => simp [CompiledFilter.evalAnd, h2, Bind.bind, Except.bind, pure, Except.pure]
  | cons f fs ih =>
      have hf := h1 f (by simp)
      simp only [List.cons_append, CompiledFilter.evalAnd, hf, Bind.bind, Except.bind,
        if_true]
      exact ih (fun g hg => h1 g (by simp [hg]))

theorem evalOr_append_true (pre post : List CompiledFilter) (c : CompiledFilter)
    (ctx : FeedItemContext) (h1 : ∀ f ∈ pre, f.evaluate ctx = .ok false)
    (h2 : c.evaluate ctx = .ok true) :
    CompiledFilter.evalOr (pre ++ c :: post) ctx = .ok true := by
  induction pre with
  | nil => simp [CompiledFilter.evalOr, h2, Bind.bind, Except.bind, pure, Except.pure]
  | cons f fs ih =>
      have hf := h1 f (by simp)
      simp only [List.cons_append, CompiledFilter.evalOr, hf, Bind.bind, Except.bind,
        if_false, Bool.false_eq_true]
      exact ih (fun g hg => h1 g (by simp [hg]))

/-- Claim C5: filter evaluation satisfies the advertised algebra: the empty
And is true and the empty Or false; Not is logical negation; And stops with
false at the first false clause whatever stands after it (a later erroring
clause cannot make it fail), and Or symmetrically stops with true at the
first true clause; a group with no filter configured accepts every item. -/
theorem filter_algebra :
    (∀ ctx, (CompiledFilter.and []).evaluate ctx = .ok true)
    ∧ (∀ ctx, (CompiledFilter.or []).evaluate ctx = .ok false)
    ∧ (∀ (c : CompiledFilter) ctx b, c.evaluate ctx = .ok b →
        (CompiledFilter.not c).evaluate ctx = .ok (!b))
    ∧ (∀ (pre post : List CompiledFilter) (c : CompiledFilter) ctx,
        (∀ f ∈ pre, f.evaluate ctx = .ok true) → c.evaluate ctx = .ok false →
        (CompiledFilter.and (pre ++ c :: post)).evaluate ctx = .ok false)
    ∧ (∀ (pre post : List CompiledFilter) (c : CompiledFilter) ctx,
        (∀ f ∈ pre, f.evaluate ctx = .ok false) → c.evaluate ctx = .ok true →
        (CompiledFilter.or (pre ++ c :: post)).evaluate ctx = .ok true)
    ∧ (∀ ctx, Renderer.filter none ctx = .ok true) := by
  refine ⟨?_, ?_, ?_, ?_, ?_, ?_⟩
  · intro ctx; simp [CompiledFilter.evaluate, CompiledFilter.evalAnd]
  · intro ctx; simp [CompiledFilter.evaluate, CompiledFilter.evalOr]
  · intro c ctx b hb
    simp [CompiledFilter.evaluate, hb, Bind.bind, Except.bind, pure, Except.pure]
  · intro pre post c ctx h1 h2
    simpa [CompiledFilter.evaluate] using evalAnd_append_false pre post c ctx h1 h2
  · intro pre post c ctx h1 h2
    simpa [CompiledFilter.evaluate] using evalOr_append_true pre post c ctx h1 h2
  · intro ctx; simp [Renderer.filter]

/-- Claim C5 witness: at a concrete item context, an And whose first clause
is false short-circuits past an erroring Jinja expression, and the absent
filter accepts. -/
theorem filter_algebra_witness :
    (CompiledFilter.and
        [CompiledFilter.or [],
         CompiledFilter.jinjaExpr (fun _ => .error "boom")]).evaluate
      ⟨⟨none, none, none⟩⟩ = .ok false ∧
    Renderer.filter none ⟨⟨none, none, none⟩⟩ = .ok true := by
  refine ⟨?_, filter_algebra.2.2.2.2.2 ⟨⟨none, none, none⟩⟩⟩
  have h := filter_algebra.2.2.2.1 []
    [CompiledFilter.jinjaExpr (fun _ => .error "boom")]
    (CompiledFilter.or []) ⟨⟨none, none, none⟩⟩ (by simp)
    (filter_algebra.2.1 ⟨⟨none, none, none⟩⟩)
  simpa using h

/-- Claim C6 (spec-modelled scheduler, later db iteration): a group whose
live criteria_hash differs from the persisted one is classified
new-criteria, a status distinct from new, update and wait, and the worker
then builds the digest subject from the "[New Criteria] " marker followed by
the rendered digest-subject template. -/
theorem new_criteria_classification (table : List (Nat × FeedGroupRowV2))
    (H criteria : Nat) (now interval : Int) (row : FeedGroupRowV2)
    (hfind : table.find? (fun p => p.1 == H) = some (H, row))
    (hdiff : row.criteria_hash ≠ criteria) :
    (try_check_feed_group_v2 table H criteria now interval).2 = .newCriteria
    ∧ FeedStatus.newCriteria ≠ .newFeed
    ∧ FeedStatus.newCriteria ≠ .update
    ∧ FeedStatus.newCriteria ≠ .wait
    ∧ (∀ rendered, digest_subject .newCriteria rendered =
        "[New Criteria] " ++ rendered) := by
  refine ⟨?_, by simp, by simp, by simp, fun rendered => rfl⟩
  simp [try_check_feed_group_v2, hfind, hdiff]

/-- Claim C6 witness: a concrete one-row table whose persisted criteria_hash
is stale yields the new-criteria status and the marked digest subject. -/
theorem new_criteria_classification_witness :
    (try_check_feed_group_v2
        [(3, { last_check := 0, last_update := none, last_seen := 0,
               criteria_hash := 9 })] 3 4 100 10).2 = .newCriteria ∧
    digest_subject .newCriteria "subj" = "[New Criteria] subj" := by
  have h := new_criteria_classification
    [(3, { last_check := 0, last_update := none, last_seen := 0, criteria_hash := 9 })]
    3 4 100 10
    { last_check := 0, last_update := none, last_seen := 0, criteria_hash := 9 }
    (by simp) (by decide)
  exact ⟨h.1, h.2.2.2.2 "subj"⟩

theorem run_ticks_sends (failures : List (Nat × String))
    (render_report : List (Nat × String) → String) (now_str : String) :
    ∀ (n : Nat) (st : FailureTracker),
      st.failing_hash = compute_failing_hash failures →
      st.report_to ≠ [] →
      (st.run_ticks failures render_report now_str n).2 =
        if 1 ≤ st.debounce_count ∧ st.debounce_count ≤ n then 1 else 0 := by
  intro n
  induction n with
  | zero =>
      intro st hh hr
      simp only [FailureTracker.run_ticks]
      split_ifs with hif
      · omega
      · rfl
  | succ n ih =>
      intro st hh hr
      have hre : st.report_to.isEmpty = false := by
        simpa [List.isEmpty_iff] using hr
      cases hc : st.debounce_count with
      | zero =>
          have hrec : st.record failures render_report now_str true = (st, []) := by
            simp [FailureTracker.record, hh.symm, hc]
          simp only [FailureTracker.run_ticks, hrec]
          rw [ih st hh hr]
          simp only [hc]
          split_ifs <;> simp_all
      | succ m =>
          cases m with
          | zero =>
              have hrec : st.record failures render_report now_str true =
                  ({ st with debounce_count := 0 },
                   [if failures.isEmpty then
                      { subject := "✅ All feeds are working",
                        body := "All feeds are back to normal now (" ++ now_str ++ ")." }
                    else
                      { subject := "🔴 Error processing feeds",
                        body := render_report failures }]) := by
                simp [FailureTracker.record, hh.symm, hc, send_failure_report, hre]
              simp only [FailureTracker.run_ticks, hrec]
              rw [ih { st with debounce_count := 0 } (by simpa using hh) (by simpa using hr)]
              simp only [hc]
              split_ifs <;> simp_all
          | succ k =>
              have hrec : st.record failures render_report now_str true =
                  ({ st with debounce_count := k + 1 }, []) := by
                simp [FailureTracker.record, hh.symm, hc]
              simp only [FailureTracker.run_ticks, hrec]
              rw [ih { st with debounce_count := k + 1 } (by simpa using hh)
                (by simpa using hr)]
              simp only [hc, List.isEmpty_nil]
              split_ifs <;> first
              | rfl
              | omega

/-- Claim C7: per tick, an unchanged failing-set digest drives the debounce
counter (at 2 or more it decrements, at 1 the report is sent and the counter
reset to 0, at 0 nothing further happens), and a changed digest is stored
with the counter reset to DEBOUNCE_TIMES; consequently a failing set kept
identical after a change tick produces at most one report, exactly at the
DEBOUNCE_TIMES-th following tick. -/
theorem failure_debounce (render_report : List (Nat × String) → String)
    (now_str : String) :
    (∀ (st : FailureTracker) (failures : List (Nat × String)) (mailer_ok : Bool),
        compute_failing_hash failures = st.failing_hash → 2 ≤ st.debounce_count →
        st.record failures render_report now_str mailer_ok =
          ({ st with debounce_count := st.debounce_count - 1 }, []))
    ∧ (∀ (st : FailureTracker) (failures : List (Nat × String)),
        compute_failing_hash failures = st.failing_hash → st.debounce_count = 1 →
        st.report_to ≠ [] →
        ((st.record failures render_report now_str true).1 =
            { st with debounce_count := 0 } ∧
         (st.record failures render_report now_str true).2 ≠ []))
    ∧ (∀ (st : FailureTracker) (failures : List (Nat × String)) (mailer_ok : Bool),
        compute_failing_hash failures = st.failing_hash → st.debounce_count = 0 →
        st.record failures render_report now_str mailer_ok = (st, []))
    ∧ (∀ (st : FailureTracker) (failures : List (Nat × String)) (mailer_ok : Bool),
        compute_failing_hash failures ≠ st.failing_hash →
        st.record failures render_report now_str mailer_ok =
          ({ st with failing_hash := compute_failing_hash failures,
                     debounce_count := DEBOUNCE_TIMES }, []))
    ∧ (∀ (st : FailureTracker) (failures : List (Nat × String)) (n : Nat),
        compute_failing_hash failures ≠ st.failing_hash → st.report_to ≠ [] →
        (((st.record failures render_report now_str true).1.run_ticks
            failures render_report now_str n).2 =
          if DEBOUNCE_TIMES ≤ n then 1 else 0)) := by
  refine ⟨?_, ?_, ?_, ?_, ?_⟩
  · intro st failures mailer_ok hh hge
    obtain ⟨m, hm⟩ : ∃ m, st.debounce_count = m + 2 := ⟨st.debounce_count - 2, by omega⟩
    simp [FailureTracker.record, hh, hm]
  · intro st failures hh hc hr
    have hre : st.report_to.isEmpty = false := by
      simpa [List.isEmpty_iff] using hr
    constructor
    · simp [FailureTracker.record, hh, hc, send_failure_report, hre]
    · simp [FailureTracker.record, hh, hc, send_failure_report, hre]
  · intro st failures mailer_ok hh hc
    simp [FailureTracker.record, hh, hc]
  · intro st failures mailer_ok hh
    simp [FailureTracker.record, hh]
  · intro st failures n hh hr
    have hrec : st.record failures render_report now_str true =
        ({ st with failing_hash := compute_failing_hash failures,
                   debounce_count := DEBOUNCE_TIMES }, []) := by
      simp [FailureTracker.record, hh]
    rw [hrec]
    rw [run_ticks_sends failures render_report now_str n _ rfl (by simpa using hr)]
    simp [DEBOUNCE_TIMES]

/-- Claim C7 witness: with the failing set unchanged, a counter of 3
decrements to 2 without a report; after a change tick, five identical ticks
produce exactly one report. -/
theorem failure_debounce_witness :
    FailureTracker.record
        { failing_hash := [1], debounce_count := 3, report_to := ["ops"] }
        [(1, "err")] (fun _ => "r") "t" true =
      ({ failing_hash := [1], debounce_count := 2, report_to := ["ops"] }, []) ∧
    ((FailureTracker.record
        { failing_hash := [], debounce_count := 0, report_to := ["ops"] }
        [(1, "err")] (fun _ => "r") "t" true).1.run_ticks
      [(1, "err")] (fun _ => "r") "t" 5).2 = 1 := by
  constructor
  · exact (failure_debounce (fun _ => "r") "t").1
      { failing_hash := [1], debounce_count := 3, report_to := ["ops"] }
      [(1, "err")] true (by decide) (by decide)
  · have h := (failure_debounce (fun _ => "r") "t").2.2.2.2
      { failing_hash := [], debounce_count := 0, report_to := ["ops"] }
      [(1, "err")] 5 (by decide) (by simp)
    simpa [DEBOUNCE_TIMES] using h

/-- Claim C10: with report_to empty, send_failure_report returns success
without handing anything to the mailer, and record at debounce_count 1 then
resets the counter to 0 exactly as if the report had been delivered,
whatever the mailer outcome would have been — failure and recovery reports
are silently dropped rather than retried or surfaced as errors. -/
theorem empty_report_to_drops_reports (failures : List (Nat × String))
    (render_report : List (Nat × String) → String) (now_str : String)
    (mailer_ok : Bool) (st : FailureTracker) (hrep : st.report_to = [])
    (hhash : compute_failing_hash failures = st.failing_hash)
    (hcount : st.debounce_count = 1) :
    send_failure_report st.report_to failures render_report now_str mailer_ok = .ok []
    ∧ st.record failures render_report now_str mailer_ok =
        ({ st with debounce_count := 0 }, []) := by
  constructor
  · simp [send_failure_report, hrep]
  · simp [FailureTracker.record, hhash, hcount, send_failure_report, hrep]

/-- Claim C10 witness: with no recipients and an unusable mailer, the record
step at counter 1 still resets to 0 with nothing handed to the mailer. -/
theorem empty_report_to_drops_reports_witness :
    send_failure_report [] [] (fun _ => "r") "t" false = .ok [] ∧
    FailureTracker.record { failing_hash := [], debounce_count := 1, report_to := [] }
        [] (fun _ => "r") "t" false =
      ({ failing_hash := [], debounce_count := 0, report_to := [] }, []) :=
  empty_report_to_drops_reports [] (fun _ => "r") "t" false
    { failing_hash := [], debounce_count := 1, report_to := [] }
    rfl (by decide) rfl

theorem lookup_set_update (table : FeedGroupsTable) (k : Nat) (now : Int) :
    lookup_row (set_feed_group_update_time table k now) k =
      (lookup_row table k).map (fun r => { r with last_update := some now }) := by
  induction table with
  | nil => simp [lookup_row, set_feed_group_update_time]
  | cons p ps ih =>
      by_cases hp : p.1 = k
      · simp [lookup_row, set_feed_group_update_time, List.find?_cons, hp]
      · have hbeq : (p.1 == k) = false := by simp [hp]
        simp only [lookup_row, set_feed_group_update_time, List.map_cons, if_neg hp] at ih ⊢
        simp only [List.find?_cons, hbeq]
        exact ih

/-- Claim C8 (amended): with no recipients the cycle skips sending while
still completing as a success with the group's failure row cleared; and in
any committed cycle the group's last_update is set to now iff the cycle had
at least one new item — regardless of whether mails were actually sent
(mails are sent iff there are new items and some recipient). -/
theorem send_phase_spec {Item : Type} (db : CycleDB) (H : Nat) (now : Int)
    (status : FeedStatus) (digest : Bool) (max_mails_per_check : Nat) (keep_old : Int)
    (new_items : List Item) (digest_mail : Mail) (item_mail : Item → Mail)
    (recipients_empty send_ok : Bool) (row : FeedGroupRow)
    (hrow : lookup_row db.feed_groups H = some row) :
    (recipients_empty = true →
        ∃ db1, process_feed_send_phase db H now status digest max_mails_per_check
            keep_old new_items digest_mail item_mail recipients_empty send_ok =
            .ok (db1, false) ∧
          ∀ p ∈ db1.failures, p.1 ≠ H)
    ∧ (∀ db1 sent,
        process_feed_send_phase db H now status digest max_mails_per_check keep_old
            new_items digest_mail item_mail recipients_empty send_ok = .ok (db1, sent) →
        lookup_row db1.feed_groups H =
            some (if new_items.isEmpty then row
                  else { row with last_update := some now })
          ∧ sent = (!new_items.isEmpty && !recipients_empty)) := by
  have hclear : ∀ (fs : List (Nat × Nat)), ∀ p ∈ clear_failure fs H, p.1 ≠ H := by
    intro fs p hp
    have := List.of_mem_filter hp
    simpa using this
  by_cases hni : new_items.isEmpty
  · refine ⟨?_, ?_⟩
    · intro hre
      subst hre
      refine ⟨{ feed_groups := db.feed_groups,
                feed_items := delete_old_items db.feed_items H now keep_old,
                failures := clear_failure db.failures H }, ?_, hclear _⟩
      simp [process_feed_send_phase, hni]
    · intro db1 sent hok
      simp only [process_feed_send_phase, hni, if_true] at hok
      cases hok
      simp [hni, hrow]
  · cases hre : recipients_empty with
    | true =>
        refine ⟨?_, ?_⟩
        · intro _
          refine ⟨{ feed_groups := set_feed_group_update_time db.feed_groups H now,
                    feed_items := delete_old_items db.feed_items H now keep_old,
                    failures := clear_failure db.failures H }, ?_, hclear _⟩
          simp [process_feed_send_phase, hni]
        · intro db1 sent hok
          simp only [process_feed_send_phase, hni, if_false, Bool.false_eq_true,
            if_true] at hok
          cases hok
          simp [hni, lookup_set_update, hrow]
    | false =>
        cases hso : send_ok with
        | false =>
            refine ⟨fun h => by simp at h, ?_⟩
            intro db1 sent hok
            simp [process_feed_send_phase, hni] at hok
        | true =>
            refine ⟨fun h => by simp at h, ?_⟩
            intro db1 sent hok
            simp only [process_feed_send_phase, hni, if_false, Bool.false_eq_true,
              if_true] at hok
            cases hok
            simp [hni, lookup_set_update, hrow]

/-- Claim C8 (counterexample): with one new item and no recipients the cycle
commits with no mail sent, yet last_update is set to now — refuting
"last_update is set iff mails were actually sent". -/
theorem last_update_iff_sent_fails :
    ¬ (∀ (db1 : CycleDB) (sent : Bool),
        process_feed_send_phase
            { feed_groups := [(7, { last_check := 0, last_update := none, last_seen := 0 })],
              feed_items := [], failures := [] }
            7 100 .update false 5 50 [()] { subject := "s", body := "b" }
            (fun _ => { subject := "s", body := "b" }) true true = .ok (db1, sent) →
        (lookup_row db1.feed_groups 7 =
            some { last_check := 0, last_update := some 100, last_seen := 0 } ↔
          sent = true)) := by
  intro hclaim
  have h := hclaim
    { feed_groups := [(7, { last_check := 0, last_update := some 100, last_seen := 0 })],
      feed_items := [], failures := [] }
    false rfl
  simp [lookup_row] at h

/-- Claim C8 witness: a concrete one-group cycle with a new item and no
recipients commits successfully, clears the failure row, and sets
last_update. -/
theorem send_phase_spec_witness :
    (∃ db1, process_feed_send_phase
        { feed_groups := [(7, { last_check := 0, last_update := none, last_seen := 0 })],
          feed_items := [], failures := [(7, 3)] }
        7 100 .update false 5 50 [()] { subject := "s", body := "b" }
        (fun _ => { subject := "s", body := "b" }) true true = .ok (db1, false) ∧
      ∀ p ∈ db1.failures, p.1 ≠ 7) :=
  (send_phase_spec
    { feed_groups := [(7, { last_check := 0, last_update := none, last_seen := 0 })],
      feed_items := [], failures := [(7, 3)] }
    7 100 .update false 5 50 [()] { subject := "s", body := "b" }
    (fun _ => { subject := "s", body := "b" }) true true
    { last_check := 0, last_update := none, last_seen := 0 } (by simp [lookup_row])).1
    rfl

/-- Claim C9 (amended): per message, delivery is attempted at most
RETRY_COUNT = 3 times, the first successful attempt stops the loop, a failed
non-final attempt sleeps 1 << attempt seconds — so 2 s after the first
failure and 4 s after the second — and when the final attempt also fails the
error returns to the caller with sleeps 2 s and 4 s performed. -/
theorem send_backoff_spec (attempt_ok : Nat → Bool) :
    (attempt_ok 1 = true →
        send_message_with_backoff attempt_ok = (some 1, []))
    ∧ (attempt_ok 1 = false → attempt_ok 2 = true →
        send_message_with_backoff attempt_ok = (some 2, [2]))
    ∧ (attempt_ok 1 = false → attempt_ok 2 = false → attempt_ok 3 = true →
        send_message_with_backoff attempt_ok = (some 3, [2, 4]))
    ∧ (attempt_ok 1 = false → attempt_ok 2 = false → attempt_ok 3 = false →
        send_message_with_backoff attempt_ok = (none, [2, 4])) := by
  have hrange : List.range' 1 RETRY_COUNT = [1, 2, 3] := by decide
  refine ⟨?_, ?_, ?_, ?_⟩ <;> intro h1 <;>
    first
    | (intro h2 h3
       simp [send_message_with_backoff, hrange, retry_loop, h1, h2, h3])
    | (intro h2
       simp [send_message_with_backoff, hrange, retry_loop, h1, h2])
    | simp [send_message_with_backoff, hrange, retry_loop, h1]

/-- Claim C9 (counterexample): when every attempt fails, the sleeps
performed between the three attempts are 2 s then 4 s, not the 1 s and 2 s
that a 1 s, 2 s, 4 s backoff schedule would put between them. -/
theorem send_backoff_claim_fails :
    (send_message_with_backoff (fun _ => false)).2 = [2, 4] ∧
    (send_message_with_backoff (fun _ => false)).2 ≠ [1, 2] := by
  decide

/-- Claim C9 witness: a message failing once and succeeding on the second
attempt sleeps 2 s once; a message succeeding immediately performs no
sleeps. -/
theorem send_backoff_spec_witness :
    send_message_with_backoff (fun a => a == 2) = (some 2, [2]) ∧
    send_message_with_backoff (fun _ => true) = (some 1, []) :=
  ⟨(send_backoff_spec (fun a => a == 2)).2.1 rfl rfl,
   (send_backoff_spec (fun _ => true)).1 rfl⟩

end Yaf2m
